import Mathlib

/-!
Shallow embedding of `src/script/bunching_analysis.py` (class `BunchingAnalysis`).

Modelling conventions:
* Python floats are modelled as exact rationals `ℚ`.  None of the verified
  properties depends on floating-point rounding error; `np.round` (half-to-even)
  is embedded exactly.
* `np.polyfit` returns least-squares coefficients computed by a floating-point
  SVD; the coefficient solver is therefore an explicit parameter
  `pf : List ℚ → List ℚ → ℕ → List ℚ` (x-values, y-values, degree ↦
  coefficients, highest degree first, as `np.polyfit` returns them).  All
  theorems hold for every solver.  `np.polyfit` raises `TypeError` on an empty
  x-vector, which is modelled by an `Option`; with `0 < len(x) < degree+1` it
  solves the underdetermined system and only emits a `RankWarning`, so no
  failure is modelled there.
* The NumPy global pseudo-random generator is modelled as a parameter
  `rng : ℕ → ℕ → ℕ` (seed, draw counter ↦ raw draw) together with an explicit
  global state `g : ℕ × ℕ` (current seed, draws consumed).  `np.random.seed(s)`
  replaces the state by `(s, 0)`; each `pandas.Series.sample(n=len, replace=True)`
  consumes `len` successive draws of the stream belonging to the current seed.
-/

attribute [local semireducible] Rat.add Rat.mul Rat.sub Rat.inv

/-- Integer rounding with ties to even, the rounding used by `np.round` /
`Series.round`. -/
def halfEvenRound (q : ℚ) : ℤ :=
  let f := ⌊q⌋
  let r := q - (f : ℚ)
  if r < 1 / 2 then f
  else if 1 / 2 < r then f + 1
  else if 2 ∣ f then f else f + 1

/-- Embedding of `np.round(q, d)` / `pandas.round(d)`: round to `d` decimal
places, ties to even. -/
def npRound (d : ℕ) (q : ℚ) : ℚ :=
  ((halfEvenRound (q * 10 ^ d) : ℚ)) / 10 ^ d

/-- Embedding of `np.arange(start, stop, step)` for positive step: the
`⌈(stop - start)/step⌉` values `start + k·step`. -/
def npArange (start stop step : ℚ) : List ℚ :=
  (List.range (⌈(stop - start) / step⌉).toNat).map (fun k : ℕ => start + (k : ℚ) * step)

/-- Embedding of `np.linspace(a, b, n)` (endpoint=True): `n` evenly spaced
points from `a` to `b`; the step is `(b-a)/(n-1)`. -/
def npLinspace (a b : ℚ) (n : ℕ) : List ℚ :=
  match n with
  | 0 => []
  | 1 => [a]
  | m + 2 => (List.range (m + 2)).map (fun i : ℕ => a + (i : ℚ) * ((b - a) / ((m : ℚ) + 1)))

/-- Embedding of `np.poly1d(coeffs)(t)`: Horner evaluation, coefficients given
highest degree first (the order `np.polyfit` produces). -/
def npPolyval (coeffs : List ℚ) (t : ℚ) : ℚ :=
  coeffs.foldl (fun acc c => acc * t + c) 0

/-- Embedding of `np.clip(ys, 0, None)`: clamp every entry below at 0. -/
def npClip0 (ys : List ℚ) : List ℚ :=
  ys.map (fun y => max y 0)

/-- Minimum of a NumPy array (`x.min()`); NumPy raises on an empty array, the
callers below guard emptiness before using this. -/
def listMin : List ℚ → ℚ
  | [] => 0
  | x :: xs => xs.foldl min x

/-- Maximum of a NumPy array (`x.max()`). -/
def listMax : List ℚ → ℚ
  | [] => 0
  | x :: xs => xs.foldl max x

/-- Embedding of `np.histogram(values, bins=edges)`: one count per bin, bins
half-open `[eᵢ, eᵢ₊₁)` except the last, which is closed `[eₙ₋₁, eₙ]`. -/
def npHistogram (values edges : List ℚ) : List ℕ :=
  (List.range (edges.length - 1)).map (fun i =>
    (values.filter (fun v =>
      decide (edges.getD i 0 ≤ v) &&
      (if i + 2 = edges.length then decide (v ≤ edges.getD (i + 1) 0)
       else decide (v < edges.getD (i + 1) 0)))).length)

/-- The estimator object: the fields stored by `BunchingAnalysis.__init__`. -/
structure BunchingAnalysis where
  data : List ℚ
  binwidth : ℚ
  poly_degree : ℕ
  seed : ℕ

/-- Embedding of the constructor: `self.data = data_series.dropna()` removes
missing values; the remaining configuration is stored verbatim. -/
def mkBunchingAnalysis (data_series : List (Option ℚ)) (binwidth : ℚ)
    (poly_degree : ℕ) (seed : ℕ) : BunchingAnalysis :=
  { data := data_series.filterMap id
    binwidth := binwidth
    poly_degree := poly_degree
    seed := seed }

/-- Embedding of `self.bins = np.arange(0, 1 + binwidth, binwidth)`. -/
def BunchingAnalysis.bins (b : BunchingAnalysis) : List ℚ :=
  npArange 0 (1 + b.binwidth) b.binwidth

/-- Embedding of `self.midpoints = ((self.bins[:-1] + self.bins[1:]) / 2).round(3)`:
pairwise midpoints of consecutive edges, rounded to 3 decimals. -/
def BunchingAnalysis.midpoints (b : BunchingAnalysis) : List ℚ :=
  (b.bins.zip b.bins.tail).map (fun p => npRound 3 ((p.1 + p.2) / 2))

/-- Embedding of the bin lookup done by
`pd.cut(v, bins, labels, include_lowest=True, right=False)`: the index `i` of
the half-open bin `[eᵢ, eᵢ₊₁)` containing `v`, over all bins (with
`right=False` every interval is left-closed right-open, the last one included;
`include_lowest` re-assigns `v = e₀` to bin 0, which is already the case).
Returns `none` (pandas `NaN`) when `v` lies in no bin, in particular when `v`
equals the top edge. -/
def pdCutIdx (edges : List ℚ) (v : ℚ) : Option ℕ :=
  (List.range (edges.length - 1)).find? (fun i =>
    decide (edges.getD i 0 ≤ v) && decide (v < edges.getD (i + 1) 0))

/-- Embedding of `add_bin_midpoint_column`: every value of the column is
rounded to 2 decimals and cut against the 2-decimal-rounded edges with
`labels = (midpoints - binwidth/2).round(3)`, `include_lowest=True`,
`right=False`; the result is the per-row label (`none` = pandas `NaN`). -/
def add_bin_midpoint_column (b : BunchingAnalysis) (column : List ℚ) :
    List (Option ℚ) :=
  let labels := b.midpoints.map (fun m => npRound 3 (m - b.binwidth / 2))
  column.map (fun v =>
    (pdCutIdx (b.bins.map (npRound 2)) (npRound 2 v)).bind (fun i => labels[i]?))

/-- Embedding of `_polyfit_smoothed(x, y)`: fit coefficients with
`np.polyfit(x, y, poly_degree)` (TypeError on empty `x`, modelled as `none`),
evaluate on `np.linspace(x.min(), x.max(), 20)` and clip negatives to zero. -/
def polyfit_smoothed (pf : List ℚ → List ℚ → ℕ → List ℚ) (deg : ℕ)
    (x y : List ℚ) : Option (List ℚ) :=
  if x.isEmpty then none
  else
    let coeffs := pf x y deg
    let x_fit := npLinspace (listMin x) (listMax x) 20
    let y_fit := x_fit.map (npPolyval coeffs)
    some (npClip0 y_fit)

/-- Embedding of the fit inlined in `scenario1`'s loop body:
`coeffs = np.polyfit(filt_mid, filt_counts, deg)`; `poly = np.poly1d(coeffs)`;
`x_fit = np.linspace(filt_mid.min(), filt_mid.max(), 20)`;
`y_fit = np.clip(poly(x_fit), 0, None)`. -/
def scenario1Fit (pf : List ℚ → List ℚ → ℕ → List ℚ) (deg : ℕ)
    (x y : List ℚ) : Option (List ℚ) :=
  if x.isEmpty then none
  else
    let coeffs := pf x y deg
    let poly := npPolyval coeffs
    let x_fit := npLinspace (listMin x) (listMax x) 20
    some (npClip0 (x_fit.map poly))

/-- Embedding of `self.data.sample(n=len(self.data), replace=True)` drawn from
the global generator stream for seed `s` starting at draw counter `c`: `len`
uniform indices into the data.  pandas routes this through
`random_state.randint(0, len(data), size=len(data))`, which raises
`ValueError: low >= high` when the population is empty — modelled as `none`. -/
def pdSample (rng : ℕ → ℕ → ℕ) (data : List ℚ) (s c : ℕ) : Option (List ℚ) :=
  if data.length = 0 then none
  else
    some ((List.range data.length).map (fun i =>
      data.getD (rng s (c + i) % data.length) 0))

/-- One bootstrap resample followed by
`np.histogram(simulated.round(2), bins=self.bins.round(2))`, as done at the top
of every scenario iteration. -/
def bootstrapCounts (rng : ℕ → ℕ → ℕ) (b : BunchingAnalysis) (s c : ℕ) :
    Option (List ℕ) :=
  (pdSample rng b.data s c).map (fun simulated =>
    npHistogram (simulated.map (npRound 2)) (b.bins.map (npRound 2)))

/-- Embedding of NumPy boolean-mask indexing `xs[mask], ys[mask]` where the
mask is an elementwise predicate on `xs` applied to the two parallel arrays. -/
def maskFilter (xs : List ℚ) (ys : List ℕ) (p : ℚ → Bool) :
    List ℚ × List ℕ :=
  let pairs := (xs.zip ys).filter (fun q => p q.1)
  (pairs.map Prod.fst, pairs.map Prod.snd)

/-- One iteration of `scenario1`'s inner loop for excluded point `excl_point`:
resample, histogram, drop the bin whose midpoint equals the excluded point
(`mask = self.midpoints != excl_point`), fit inline. -/
def scenario1Iter (pf : List ℚ → List ℚ → ℕ → List ℚ) (rng : ℕ → ℕ → ℕ)
    (b : BunchingAnalysis) (excl_point : ℚ) (s c : ℕ) : Option (List ℚ) := do
  let counts ← bootstrapCounts rng b s c
  let fm := maskFilter b.midpoints counts (fun m => decide (m ≠ excl_point))
  scenario1Fit pf b.poly_degree fm.1 (fm.2.map (fun k : ℕ => (k : ℚ)))

/-- Generic embedding of `for sim in range(k): row = iter(counter); counter += len`:
the rows of `k` successive iterations, each consuming `len` draws of the
stream, starting at draw counter `c`.  An exception in any iteration aborts
the whole loop (`none`). -/
def simLoop (iter : ℕ → Option (List ℚ)) (len : ℕ) : ℕ → ℕ → Option (List (List ℚ))
  | 0, _ => some []
  | k + 1, c =>
    (iter c).bind (fun row =>
      (simLoop iter len k (c + len)).map (fun rest => row :: rest))

/-- Pointwise update of the `results` dict (`results[p] = block`). -/
def updFun (f : ℚ → List (List ℚ)) (p : ℚ) (v : List (List ℚ)) :
    ℚ → List (List ℚ) :=
  fun q => if q = p then v else f q

/-- Embedding of `scenario1`'s outer loop `for excl_point in exclude_points`:
each point runs `num` bootstrap iterations (consuming `num * len(data)` draws
of the single stream) and stores its block in the `results` dict; a duplicated
point overwrites its earlier block, as a Python dict does. -/
def scenario1Run (pf : List ℚ → List ℚ → ℕ → List ℚ) (rng : ℕ → ℕ → ℕ)
    (b : BunchingAnalysis) (num s : ℕ) :
    List ℚ → ℕ → (ℚ → List (List ℚ)) → Option (ℚ → List (List ℚ))
  | [], _, res => some res
  | p :: ps, c, res =>
    (simLoop (scenario1Iter pf rng b p s) b.data.length num c).bind
      (fun block => scenario1Run pf rng b num s ps (c + num * b.data.length) (updFun res p block))

/-- Embedding of `np.mean/np.std(matrix, axis=0)` column extraction: column `j`
of the row-major matrix. -/
def npColumn (m : List (List ℚ)) (j : ℕ) : List ℚ :=
  m.map (fun row => row.getD j 0)

/-- Embedding of `np.mean(matrix, axis=0)`: per column, the sum of the column
divided by the number of rows. -/
def npMean0 (m : List (List ℚ)) : List ℚ :=
  (List.range (m.headD []).length).map (fun j =>
    (npColumn m j).sum / (m.length : ℚ))

/-- Embedding of the square of `np.std(matrix, axis=0, ddof=1)`: the sample
variance per column with denominator `n - 1`.  The Python value is the square
root of this, which is irrational in general, so the rational embedding
carries the std through its square. -/
def npVar0 (m : List (List ℚ)) : List ℚ :=
  (List.range (m.headD []).length).map (fun j =>
    ((npColumn m j).map (fun x => (x - (npColumn m j).sum / (m.length : ℚ)) ^ 2)).sum
      / ((m.length : ℚ) - 1))

/-- Embedding of `scenario1(num_simulations, exclude_points)`.  The incoming
global generator state `g` is immediately overwritten by
`np.random.seed(self.seed)`; the `results` dict (initialised with zero blocks)
is filled point by point from the single reseeded stream, and
`np.vstack([results[p] for p in exclude_points])` stacks the blocks in
argument order.  Returns the matrix with its column mean and squared column
std (`ddof=1`). -/
def scenario1 (pf : List ℚ → List ℚ → ℕ → List ℚ) (rng : ℕ → ℕ → ℕ)
    (b : BunchingAnalysis) (num_simulations : ℕ) (exclude_points : List ℚ)
    (g : ℕ × ℕ) : Option (List (List ℚ) × List ℚ × List ℚ) :=
  let _ := g
  let s := b.seed
  let init : ℚ → List (List ℚ) :=
    fun _ => List.replicate num_simulations (List.replicate 20 0)
  (scenario1Run pf rng b num_simulations s exclude_points 0 init).map
    (fun res =>
      let matrix := (exclude_points.map res).flatten
      (matrix, npMean0 matrix, npVar0 matrix))

/-- One iteration of `scenario2`'s loop: resample, histogram, fit over all
midpoints (no exclusion), clip.  `np.polyfit` on an empty midpoint vector
would raise, modelled as `none`. -/
def scenario2Iter (pf : List ℚ → List ℚ → ℕ → List ℚ) (rng : ℕ → ℕ → ℕ)
    (b : BunchingAnalysis) (s c : ℕ) : Option (List ℚ) := do
  let counts ← bootstrapCounts rng b s c
  if b.midpoints.isEmpty then none
  else
    let coeffs := pf b.midpoints (counts.map (fun k : ℕ => (k : ℚ))) b.poly_degree
    let y_fit := (npLinspace (listMin b.midpoints) (listMax b.midpoints) 20).map
      (npPolyval coeffs)
    some (npClip0 y_fit)

/-- Embedding of `scenario2(num_simulations)`: reseed, then
`scaled_sims = num_simulations * 4` full-sample bootstrap iterations. -/
def scenario2 (pf : List ℚ → List ℚ → ℕ → List ℚ) (rng : ℕ → ℕ → ℕ)
    (b : BunchingAnalysis) (num_simulations : ℕ) (g : ℕ × ℕ) :
    Option (List (List ℚ) × List ℚ × List ℚ) :=
  let _ := g
  let s := b.seed
  (simLoop (scenario2Iter pf rng b s) b.data.length (num_simulations * 4) 0).map
    (fun matrix => (matrix, npMean0 matrix, npVar0 matrix))

/-- One iteration of `scenario3`'s loop: resample, histogram, restrict the
parallel arrays to the static exclusion mask, then the shared primitive
`_polyfit_smoothed`. -/
def scenario3Iter (pf : List ℚ → List ℚ → ℕ → List ℚ) (rng : ℕ → ℕ → ℕ)
    (b : BunchingAnalysis) (mask : ℚ → Bool) (s c : ℕ) : Option (List ℚ) := do
  let counts ← bootstrapCounts rng b s c
  let fm := maskFilter b.midpoints counts mask
  polyfit_smoothed pf b.poly_degree fm.1 (fm.2.map (fun k : ℕ => (k : ℚ)))

/-- Embedding of `scenario3(num_simulations, zstar)`: reseed, compute
`exclusion_mask = (midpoints < zstar - binwidth) | (midpoints > zstar + binwidth)`
once before the loop, then `num_simulations * 4` iterations through
`_polyfit_smoothed`. -/
def scenario3 (pf : List ℚ → List ℚ → ℕ → List ℚ) (rng : ℕ → ℕ → ℕ)
    (b : BunchingAnalysis) (num_simulations : ℕ) (zstar : ℚ) (g : ℕ × ℕ) :
    Option (List (List ℚ) × List ℚ × List ℚ) :=
  let _ := g
  let s := b.seed
  let mask : ℚ → Bool :=
    fun m => decide (m < zstar - b.binwidth) || decide (zstar + b.binwidth < m)
  (simLoop (scenario3Iter pf rng b mask s) b.data.length (num_simulations * 4) 0).map
    (fun matrix => (matrix, npMean0 matrix, npVar0 matrix))

/-- The midpoints retained by `scenario3`'s static exclusion mask
(`self.midpoints[exclusion_mask]`). -/
def scenario3Retained (b : BunchingAnalysis) (zstar : ℚ) : List ℚ :=
  b.midpoints.filter (fun m =>
    decide (m < zstar - b.binwidth) || decide (zstar + b.binwidth < m))

/-- Degenerate coefficient solver used to instantiate witnesses: the theorems
hold for every solver, so any concrete one will do. -/
def pfZero : List ℚ → List ℚ → ℕ → List ℚ := fun _ _ _ => []

/-- Concrete generator used to instantiate witnesses. -/
def rngId : ℕ → ℕ → ℕ := fun _ c => c

/-- Tiny concrete estimator (two observations, binwidth 1/2, two bins) used in
witnesses and counterexamples. -/
def bW : BunchingAnalysis := ⟨[0, 1/2], 1/2, 4, 0⟩

/-- Concrete estimator with the default configuration (binwidth 0.05, degree 4,
seed 123; the data list is irrelevant to the binning claims). -/
def bstd : BunchingAnalysis := ⟨[], 1/20, 4, 123⟩


/-! Helper lemmas about the embedded NumPy primitives. -/

theorem getD_map_range {α : Type} (f : ℕ → α) {m i : ℕ} (d : α) (h : i < m) :
    ((List.range m).map f).getD i d = f i := by
  simp [List.getD_eq_getElem?_getD, List.getElem?_map, List.getElem?_range, h]

theorem npLinspace_eq (a b : ℚ) (m : ℕ) :
    npLinspace a b (m + 2) =
      (List.range (m + 2)).map (fun i : ℕ => a + (i : ℚ) * ((b - a) / ((m : ℚ) + 1))) :=
  rfl

theorem npLinspace_length (a b : ℚ) (n : ℕ) : (npLinspace a b n).length = n := by
  match n with
  | 0 => rfl
  | 1 => rfl
  | m + 2 =>
    rw [npLinspace_eq, List.length_map, List.length_range]

theorem npLinspace_getD_zero (a b : ℚ) (m : ℕ) :
    (npLinspace a b (m + 2)).getD 0 0 = a := by
  rw [npLinspace_eq, getD_map_range _ _ (Nat.succ_le_succ (Nat.zero_le _))]
  norm_num

theorem npLinspace_getD_last (a b : ℚ) (m : ℕ) :
    (npLinspace a b (m + 2)).getD (m + 1) 0 = b := by
  rw [npLinspace_eq, getD_map_range _ _ (by omega)]
  have hm : ((m : ℚ) + 1) ≠ 0 := by positivity
  push_cast
  field_simp

theorem npClip0_length (ys : List ℚ) : (npClip0 ys).length = ys.length := by
  simp [npClip0]

theorem npClip0_nonneg {v : ℚ} {ys : List ℚ} (h : v ∈ npClip0 ys) : 0 ≤ v := by
  rcases List.mem_map.1 h with ⟨y, _, rfl⟩
  exact le_max_right y 0

theorem npHistogram_length (values edges : List ℚ) :
    (npHistogram values edges).length = edges.length - 1 := by
  simp [npHistogram]

theorem midpoints_length (b : BunchingAnalysis) :
    b.midpoints.length = b.bins.length - 1 := by
  simp [BunchingAnalysis.midpoints, List.length_zip, List.length_tail]

theorem bootstrapCounts_length {rng : ℕ → ℕ → ℕ} {b : BunchingAnalysis}
    {s c : ℕ} {ys : List ℕ} (h : bootstrapCounts rng b s c = some ys) :
    ys.length = b.midpoints.length := by
  rcases Option.map_eq_some'.1 h with ⟨sim, _, rfl⟩
  rw [npHistogram_length, midpoints_length, List.length_map]

theorem maskFilter_fst {xs : List ℚ} {ys : List ℕ} (p : ℚ → Bool)
    (h : xs.length ≤ ys.length) : (maskFilter xs ys p).1 = xs.filter p := by
  induction xs generalizing ys with
  | nil => simp [maskFilter]
  | cons x xs ih =>
    match ys with
    | [] => simp at h
    | y :: ys =>
      have hlen : xs.length ≤ ys.length := Nat.succ_le_succ_iff.1 h
      by_cases hp : p x
      · simpa [maskFilter, List.filter_cons, hp] using congrArg (x :: ·) (ih hlen)
      · simpa [maskFilter, List.filter_cons, hp] using ih hlen

theorem maskFilter_snd_of_all {xs : List ℚ} {ys : List ℕ} (p : ℚ → Bool)
    (hall : ∀ x ∈ xs, p x = true) (h : ys.length ≤ xs.length) :
    (maskFilter xs ys p).2 = ys := by
  have hfil : ((xs.zip ys).filter (fun q => p q.1)) = xs.zip ys := by
    refine List.filter_eq_self.2 (fun q hq => hall q.1 (List.of_mem_zip hq).1)
  simp only [maskFilter, hfil]
  exact List.map_snd_zip xs ys h

theorem scenario1Fit_length {pf : List ℚ → List ℚ → ℕ → List ℚ} {deg : ℕ}
    {x y row : List ℚ} (h : scenario1Fit pf deg x y = some row) :
    row.length = 20 := by
  by_cases hx : x.isEmpty <;> simp [scenario1Fit, hx] at h
  rw [← h, npClip0_length, List.length_map, npLinspace_length]

theorem polyfit_smoothed_length {pf : List ℚ → List ℚ → ℕ → List ℚ} {deg : ℕ}
    {x y row : List ℚ} (h : polyfit_smoothed pf deg x y = some row) :
    row.length = 20 := by
  by_cases hx : x.isEmpty <;> simp [polyfit_smoothed, hx] at h
  rw [← h, npClip0_length, List.length_map, npLinspace_length]

theorem scenario1Fit_nonneg {pf : List ℚ → List ℚ → ℕ → List ℚ} {deg : ℕ}
    {x y row : List ℚ} (h : scenario1Fit pf deg x y = some row) :
    ∀ v ∈ row, 0 ≤ v := by
  by_cases hx : x.isEmpty <;> simp [scenario1Fit, hx] at h
  intro v hv
  exact npClip0_nonneg (h ▸ hv)

theorem polyfit_smoothed_nonneg {pf : List ℚ → List ℚ → ℕ → List ℚ} {deg : ℕ}
    {x y row : List ℚ} (h : polyfit_smoothed pf deg x y = some row) :
    ∀ v ∈ row, 0 ≤ v := by
  by_cases hx : x.isEmpty <;> simp [polyfit_smoothed, hx] at h
  intro v hv
  exact npClip0_nonneg (h ▸ hv)

/-! Lemmas about the bootstrap iteration loops. -/

theorem simLoop_length {iter : ℕ → Option (List ℚ)} {len : ℕ} :
    ∀ {k c : ℕ} {m : List (List ℚ)}, simLoop iter len k c = some m → m.length = k := by
  intro k
  induction k with
  | zero => intro c m h; simp [simLoop] at h; simp [← h]
  | succ n ih =>
    intro c m h
    simp only [simLoop] at h
    rcases Option.bind_eq_some.1 h with ⟨row, _, hrest⟩
    rcases Option.map_eq_some'.1 hrest with ⟨rest, hrest2, rfl⟩
    simp [ih hrest2]

theorem simLoop_rows {iter : ℕ → Option (List ℚ)} {len : ℕ} :
    ∀ {k c : ℕ} {m : List (List ℚ)}, simLoop iter len k c = some m →
      ∀ i < k, iter (c + i * len) = some (m.getD i []) := by
  intro k
  induction k with
  | zero => intro c m _ i hi; omega
  | succ n ih =>
    intro c m h i hi
    simp only [simLoop] at h
    rcases Option.bind_eq_some.1 h with ⟨row, hrow, hrest⟩
    rcases Option.map_eq_some'.1 hrest with ⟨rest, hrest2, rfl⟩
    match i with
    | 0 => simpa using hrow
    | j + 1 =>
      have := ih hrest2 j (by omega)
      have harith : c + len + j * len = c + (j + 1) * len := by ring
      rw [harith] at this
      simpa using this

theorem simLoop_mem {iter : ℕ → Option (List ℚ)} {len : ℕ} :
    ∀ {k c : ℕ} {m : List (List ℚ)}, simLoop iter len k c = some m →
      ∀ row ∈ m, ∃ c0, iter c0 = some row := by
  intro k
  induction k with
  | zero => intro c m h row hrow; simp [simLoop] at h; subst h; simp at hrow
  | succ n ih =>
    intro c m h row hrow
    simp only [simLoop] at h
    rcases Option.bind_eq_some.1 h with ⟨r0, hr0, hrest⟩
    rcases Option.map_eq_some'.1 hrest with ⟨rest, hrest2, rfl⟩
    rcases List.mem_cons.1 hrow with rfl | hmem
    · exact ⟨c, hr0⟩
    · exact ih hrest2 row hmem

theorem scenario1Run_unchanged {pf : List ℚ → List ℚ → ℕ → List ℚ}
    {rng : ℕ → ℕ → ℕ} {b : BunchingAnalysis} {num s : ℕ} :
    ∀ {ps : List ℚ} {c : ℕ} {res res' : ℚ → List (List ℚ)},
      scenario1Run pf rng b num s ps c res = some res' →
      ∀ q, q ∉ ps → res' q = res q := by
  intro ps
  induction ps with
  | nil => intro c res res' h q _; simp [scenario1Run] at h; simp [← h]
  | cons p ps ih =>
    intro c res res' h q hq
    simp only [scenario1Run] at h
    rcases Option.bind_eq_some.1 h with ⟨block, _, hrest⟩
    have hq1 : q ≠ p := fun hqp => hq (hqp ▸ List.mem_cons_self p ps)
    have hq2 : q ∉ ps := fun hmem => hq (List.mem_cons_of_mem p hmem)
    rw [ih hrest q hq2]
    simp [updFun, hq1]

theorem scenario1Run_blocks {pf : List ℚ → List ℚ → ℕ → List ℚ}
    {rng : ℕ → ℕ → ℕ} {b : BunchingAnalysis} {num s : ℕ} :
    ∀ {ps : List ℚ} {c : ℕ} {res res' : ℚ → List (List ℚ)},
      scenario1Run pf rng b num s ps c res = some res' →
      ∀ p ∈ ps, ∃ c0,
        simLoop (scenario1Iter pf rng b p s) b.data.length num c0 = some (res' p) := by
  intro ps
  induction ps with
  | nil => intro c res res' _ p hp; simp at hp
  | cons q ps ih =>
    intro c res res' h p hp
    simp only [scenario1Run] at h
    rcases Option.bind_eq_some.1 h with ⟨block, hblock, hrest⟩
    by_cases hmem : p ∈ ps
    · exact ih hrest p hmem
    · have hpq : p = q := by
        rcases List.mem_cons.1 hp with hpq | hmem2
        · exact hpq
        · exact absurd hmem2 hmem
      subst hpq
      have := scenario1Run_unchanged hrest p hmem
      rw [this]
      exact ⟨c, by simpa [updFun] using hblock⟩

theorem scenario1Run_nodup_blocks {pf : List ℚ → List ℚ → ℕ → List ℚ}
    {rng : ℕ → ℕ → ℕ} {b : BunchingAnalysis} {num s : ℕ} :
    ∀ {ps : List ℚ} {c : ℕ} {res res' : ℚ → List (List ℚ)},
      scenario1Run pf rng b num s ps c res = some res' → ps.Nodup →
      ∀ j < ps.length,
        simLoop (scenario1Iter pf rng b (ps.getD j 0) s) b.data.length num
            (c + j * (num * b.data.length)) = some (res' (ps.getD j 0)) := by
  intro ps
  induction ps with
  | nil => intro c res res' _ _ j hj; simp at hj
  | cons q ps ih =>
    intro c res res' h hnd j hj
    simp only [scenario1Run] at h
    rcases Option.bind_eq_some.1 h with ⟨block, hblock, hrest⟩
    rcases List.nodup_cons.1 hnd with ⟨hqnot, hnd2⟩
    match j with
    | 0 =>
      have hres : res' q = block := by
        rw [scenario1Run_unchanged hrest q hqnot]
        simp [updFun]
      simpa [hres] using hblock
    | i + 1 =>
      have := ih hrest hnd2 i (by simpa using hj)
      have harith : c + num * b.data.length + i * (num * b.data.length)
          = c + (i + 1) * (num * b.data.length) := by ring
      rw [harith] at this
      simpa using this

theorem flatten_getD_blocks {num : ℕ} :
    ∀ {blocks : List (List (List ℚ))} (hlen : ∀ bl ∈ blocks, bl.length = num)
      {j i : ℕ}, j < blocks.length → i < num →
      blocks.flatten.getD (j * num + i) [] = (blocks.getD j []).getD i [] := by
  intro blocks
  induction blocks with
  | nil => intro _ j i hj _; simp at hj
  | cons bl blocks ih =>
    intro hlen j i hj hi
    have hbl : bl.length = num := hlen bl (List.mem_cons_self bl blocks)
    match j with
    | 0 =>
      have hi' : i < bl.length := by omega
      simp only [List.flatten_cons, Nat.zero_mul, Nat.zero_add]
      rw [List.getD_append _ _ _ _ hi']
      simp
    | k + 1 =>
      have hidx : (k + 1) * num + i = bl.length + (k * num + i) := by
        rw [hbl]; ring
      simp only [List.flatten_cons, hidx]
      rw [List.getD_append_right _ _ _ _ (Nat.le_add_right _ _), Nat.add_sub_cancel_left]
      have := ih (fun x hx => hlen x (List.mem_cons_of_mem bl hx)) (by simpa using hj) hi
      simpa using this

theorem flatten_length_blocks {num : ℕ} {blocks : List (List (List ℚ))}
    (hlen : ∀ bl ∈ blocks, bl.length = num) :
    blocks.flatten.length = blocks.length * num := by
  induction blocks with
  | nil => simp
  | cons bl blocks ih =>
    have hbl : bl.length = num := hlen bl (List.mem_cons_self bl blocks)
    have := ih (fun x hx => hlen x (List.mem_cons_of_mem bl hx))
    simp [List.flatten_cons, this, hbl]
    ring

theorem getD_nonneg_of_all {row : List ℚ} (h : ∀ x ∈ row, 0 ≤ x) (j : ℕ) :
    0 ≤ row.getD j 0 := by
  rcases hje : row[j]? with _ | x
  · simp [List.getD_eq_getElem?_getD, hje]
  · have := List.getElem?_mem hje
    simp only [List.getD_eq_getElem?_getD, hje, Option.getD_some]
    exact h x this

theorem npMean0_nonneg {m : List (List ℚ)}
    (h : ∀ row ∈ m, ∀ x ∈ row, 0 ≤ x) : ∀ v ∈ npMean0 m, 0 ≤ v := by
  intro v hv
  rcases List.mem_map.1 hv with ⟨j, _, rfl⟩
  apply div_nonneg
  · apply List.sum_nonneg
    intro x hx
    rcases List.mem_map.1 hx with ⟨row, hrow, rfl⟩
    exact getD_nonneg_of_all (h row hrow) j
  · exact Nat.cast_nonneg _

/-! Per-iteration helper lemmas for the three scenarios. -/

theorem scenario1Iter_length {pf : List ℚ → List ℚ → ℕ → List ℚ}
    {rng : ℕ → ℕ → ℕ} {b : BunchingAnalysis} {p : ℚ} {s c : ℕ} {row : List ℚ}
    (h : scenario1Iter pf rng b p s c = some row) : row.length = 20 := by
  rcases Option.bind_eq_some.1 h with ⟨counts, _, hfit⟩
  exact scenario1Fit_length hfit

theorem scenario1Iter_nonneg {pf : List ℚ → List ℚ → ℕ → List ℚ}
    {rng : ℕ → ℕ → ℕ} {b : BunchingAnalysis} {p : ℚ} {s c : ℕ} {row : List ℚ}
    (h : scenario1Iter pf rng b p s c = some row) : ∀ v ∈ row, 0 ≤ v := by
  rcases Option.bind_eq_some.1 h with ⟨counts, _, hfit⟩
  exact scenario1Fit_nonneg hfit

theorem scenario2Iter_structure {pf : List ℚ → List ℚ → ℕ → List ℚ}
    {rng : ℕ → ℕ → ℕ} {b : BunchingAnalysis} {s c : ℕ} {row : List ℚ}
    (h : scenario2Iter pf rng b s c = some row) :
    ∃ counts, bootstrapCounts rng b s c = some counts ∧
      row = npClip0 ((npLinspace (listMin b.midpoints) (listMax b.midpoints) 20).map
        (npPolyval (pf b.midpoints (counts.map (fun k : ℕ => (k : ℚ))) b.poly_degree))) := by
  rcases Option.bind_eq_some.1 h with ⟨counts, hbc, hfit⟩
  refine ⟨counts, hbc, ?_⟩
  by_cases hmid : b.midpoints.isEmpty <;> simp [hmid] at hfit
  exact hfit.symm

theorem scenario2Iter_length {pf : List ℚ → List ℚ → ℕ → List ℚ}
    {rng : ℕ → ℕ → ℕ} {b : BunchingAnalysis} {s c : ℕ} {row : List ℚ}
    (h : scenario2Iter pf rng b s c = some row) : row.length = 20 := by
  rcases scenario2Iter_structure h with ⟨counts, _, rfl⟩
  rw [npClip0_length, List.length_map, npLinspace_length]

theorem scenario2Iter_nonneg {pf : List ℚ → List ℚ → ℕ → List ℚ}
    {rng : ℕ → ℕ → ℕ} {b : BunchingAnalysis} {s c : ℕ} {row : List ℚ}
    (h : scenario2Iter pf rng b s c = some row) : ∀ v ∈ row, 0 ≤ v := by
  rcases scenario2Iter_structure h with ⟨counts, _, rfl⟩
  intro v hv
  exact npClip0_nonneg hv

theorem scenario3Iter_length {pf : List ℚ → List ℚ → ℕ → List ℚ}
    {rng : ℕ → ℕ → ℕ} {b : BunchingAnalysis} {mask : ℚ → Bool} {s c : ℕ}
    {row : List ℚ} (h : scenario3Iter pf rng b mask s c = some row) :
    row.length = 20 := by
  rcases Option.bind_eq_some.1 h with ⟨counts, _, hfit⟩
  exact polyfit_smoothed_length hfit

theorem scenario3Iter_nonneg {pf : List ℚ → List ℚ → ℕ → List ℚ}
    {rng : ℕ → ℕ → ℕ} {b : BunchingAnalysis} {mask : ℚ → Bool} {s c : ℕ}
    {row : List ℚ} (h : scenario3Iter pf rng b mask s c = some row) :
    ∀ v ∈ row, 0 ≤ v := by
  rcases Option.bind_eq_some.1 h with ⟨counts, _, hfit⟩
  exact polyfit_smoothed_nonneg hfit

theorem scenario1_structure {pf : List ℚ → List ℚ → ℕ → List ℚ}
    {rng : ℕ → ℕ → ℕ} {b : BunchingAnalysis} {num : ℕ} {excl : List ℚ}
    {g : ℕ × ℕ} {r : List (List ℚ) × List ℚ × List ℚ}
    (h : scenario1 pf rng b num excl g = some r) :
    ∃ res', scenario1Run pf rng b num b.seed excl 0
        (fun _ => List.replicate num (List.replicate 20 0)) = some res' ∧
      r = ((excl.map res').flatten, npMean0 ((excl.map res').flatten),
           npVar0 ((excl.map res').flatten)) := by
  simp only [scenario1] at h
  rcases Option.map_eq_some'.1 h with ⟨res', hrun, hr⟩
  exact ⟨res', hrun, hr.symm⟩

theorem scenario1_blocks_length {pf : List ℚ → List ℚ → ℕ → List ℚ}
    {rng : ℕ → ℕ → ℕ} {b : BunchingAnalysis} {num : ℕ} {excl : List ℚ}
    {c : ℕ} {res res' : ℚ → List (List ℚ)}
    (hrun : scenario1Run pf rng b num b.seed excl c res = some res') :
    ∀ bl ∈ excl.map res', bl.length = num := by
  intro bl hbl
  rcases List.mem_map.1 hbl with ⟨p, hp, rfl⟩
  rcases scenario1Run_blocks hrun p hp with ⟨c0, hsl⟩
  exact simLoop_length hsl

theorem scenario2_structure {pf : List ℚ → List ℚ → ℕ → List ℚ}
    {rng : ℕ → ℕ → ℕ} {b : BunchingAnalysis} {num : ℕ} {g : ℕ × ℕ}
    {r : List (List ℚ) × List ℚ × List ℚ}
    (h : scenario2 pf rng b num g = some r) :
    ∃ matrix, simLoop (scenario2Iter pf rng b b.seed) b.data.length (num * 4) 0
        = some matrix ∧ r = (matrix, npMean0 matrix, npVar0 matrix) := by
  simp only [scenario2] at h
  rcases Option.map_eq_some'.1 h with ⟨matrix, hsl, hr⟩
  exact ⟨matrix, hsl, hr.symm⟩

theorem scenario3_structure {pf : List ℚ → List ℚ → ℕ → List ℚ}
    {rng : ℕ → ℕ → ℕ} {b : BunchingAnalysis} {num : ℕ} {zstar : ℚ} {g : ℕ × ℕ}
    {r : List (List ℚ) × List ℚ × List ℚ}
    (h : scenario3 pf rng b num zstar g = some r) :
    ∃ matrix, simLoop (scenario3Iter pf rng b
        (fun m => decide (m < zstar - b.binwidth) || decide (zstar + b.binwidth < m))
        b.seed) b.data.length (num * 4) 0 = some matrix ∧
      r = (matrix, npMean0 matrix, npVar0 matrix) := by
  simp only [scenario3] at h
  rcases Option.map_eq_some'.1 h with ⟨matrix, hsl, hr⟩
  exact ⟨matrix, hsl, hr.symm⟩

theorem scenario1Iter_eq (pf : List ℚ → List ℚ → ℕ → List ℚ) (rng : ℕ → ℕ → ℕ)
    (b : BunchingAnalysis) (p : ℚ) (s c : ℕ) :
    scenario1Iter pf rng b p s c
      = (bootstrapCounts rng b s c).bind (fun counts =>
          scenario1Fit pf b.poly_degree
            (maskFilter b.midpoints counts (fun m => decide (m ≠ p))).1
            ((maskFilter b.midpoints counts (fun m => decide (m ≠ p))).2.map
              (fun k : ℕ => (k : ℚ)))) := rfl

theorem scenario2Iter_eq (pf : List ℚ → List ℚ → ℕ → List ℚ) (rng : ℕ → ℕ → ℕ)
    (b : BunchingAnalysis) (s c : ℕ) :
    scenario2Iter pf rng b s c
      = (bootstrapCounts rng b s c).bind (fun counts =>
          if b.midpoints.isEmpty then none
          else some (npClip0
            ((npLinspace (listMin b.midpoints) (listMax b.midpoints) 20).map
              (npPolyval (pf b.midpoints (counts.map (fun k : ℕ => (k : ℚ)))
                b.poly_degree))))) := rfl

theorem scenario3Iter_eq (pf : List ℚ → List ℚ → ℕ → List ℚ) (rng : ℕ → ℕ → ℕ)
    (b : BunchingAnalysis) (mask : ℚ → Bool) (s c : ℕ) :
    scenario3Iter pf rng b mask s c
      = (bootstrapCounts rng b s c).bind (fun counts =>
          polyfit_smoothed pf b.poly_degree
            (maskFilter b.midpoints counts mask).1
            ((maskFilter b.midpoints counts mask).2.map (fun k : ℕ => (k : ℚ)))) := rfl

/-! Claim theorems. -/

/-- C10: for every coefficient solver, degree and filtered input `(x, y)`, the
fit inlined in `scenario1`'s loop body (polyfit, 20-point linspace evaluation,
clamp at zero) computes exactly the same 20-point curve as the shared
primitive `_polyfit_smoothed` used by `scenario3`: the two are the same
function. -/
theorem scenario1_fit_eq_polyfit_smoothed (pf : List ℚ → List ℚ → ℕ → List ℚ)
    (deg : ℕ) (x y : List ℚ) :
    scenario1Fit pf deg x y = polyfit_smoothed pf deg x y := rfl

/-- C4: every scenario call starts with `np.random.seed(self.seed)`, which
overwrites the incoming global generator state; hence two invocations with the
same arguments on an unchanged instance produce identical results, whatever
generator states `g`, `g'` they start from. -/
theorem scenario_reseed_deterministic (pf : List ℚ → List ℚ → ℕ → List ℚ)
    (rng : ℕ → ℕ → ℕ) (b : BunchingAnalysis) (num : ℕ) (excl : List ℚ)
    (zstar : ℚ) (g g' : ℕ × ℕ) :
    scenario1 pf rng b num excl g = scenario1 pf rng b num excl g' ∧
    scenario2 pf rng b num g = scenario2 pf rng b num g' ∧
    scenario3 pf rng b num zstar g = scenario3 pf rng b num zstar g' :=
  ⟨rfl, rfl, rfl⟩

/-- C5 counterexample: calling `scenario1` with the exclusion point `3/10`,
which matches no bin midpoint of the two-bin estimator `bW` (midpoints `1/4`
and `3/4`), does NOT raise any error: the call returns a result, and the mask
`midpoints != excl_point` removes no bin at all.  This falsifies the claim
that a non-matching exclusion point raises a fatal input-validation error. -/
theorem scenario1_unmatched_point_silent :
    (scenario1 pfZero rngId bW 1 [(3 : ℚ)/10] (5, 7)).isSome = true ∧
    (3 : ℚ)/10 ∉ bW.midpoints ∧
    bW.midpoints.filter (fun m => decide (m ≠ (3 : ℚ)/10)) = bW.midpoints := by
  decide

/-- C5 amended: if an `exclude_points` entry matches no bin midpoint,
`scenario1` silently proceeds with no bin removed — each of its iterations is
exactly a full-sample (`scenario2`-style) iteration; no error is raised and no
nearest-match fallback is applied. -/
theorem scenario1_unmatched_point_noop (pf : List ℚ → List ℚ → ℕ → List ℚ)
    (rng : ℕ → ℕ → ℕ) (b : BunchingAnalysis) (p : ℚ) (s c : ℕ)
    (h : p ∉ b.midpoints) :
    scenario1Iter pf rng b p s c = scenario2Iter pf rng b s c := by
  rw [scenario1Iter_eq, scenario2Iter_eq]
  cases hbc : bootstrapCounts rng b s c with
  | none => rfl
  | some counts =>
    simp only [Option.some_bind]
    have hlen : counts.length = b.midpoints.length := bootstrapCounts_length hbc
    have hall : ∀ m ∈ b.midpoints, (fun m => decide (m ≠ p)) m = true := by
      intro m hm
      simp only [decide_eq_true_eq]
      exact fun hmp => h (hmp ▸ hm)
    have h1 : (maskFilter b.midpoints counts (fun m => decide (m ≠ p))).1
        = b.midpoints := by
      rw [maskFilter_fst _ (le_of_eq hlen.symm)]
      exact List.filter_eq_self.2 hall
    have h2 : (maskFilter b.midpoints counts (fun m => decide (m ≠ p))).2
        = counts := maskFilter_snd_of_all _ hall (le_of_eq hlen)
    rw [h1, h2]
    rfl

/-- C5 amended witness at a concrete input: `3/10` matches no midpoint of
`bW`, and the `scenario1` iteration equals the `scenario2` iteration there. -/
theorem scenario1_unmatched_point_noop_witness :
    ((3 : ℚ)/10 ∉ bW.midpoints) ∧
    scenario1Iter pfZero rngId bW ((3 : ℚ)/10) 0 0 = scenario2Iter pfZero rngId bW 0 0 :=
  ⟨by decide, scenario1_unmatched_point_noop pfZero rngId bW ((3 : ℚ)/10) 0 0 (by decide)⟩

/-- C6 counterexample: with the default binwidth `1/20 = 0.05`, the value
`0.05` is labelled `0.05` (its own bin's left edge), not `0.025` (the midpoint
of the bin `[0, 0.05)` immediately below its nominal bin) and not `0`; and the
value `1.0`, equal to the top edge, receives no label at all (so the binning is
half-open on the right in every bin, the lowest and highest included).  This
falsifies both the "midpoint of the bin immediately below" reading and the
"lowest bin closed on both ends" convention. -/
theorem add_bin_midpoint_not_bin_below :
    add_bin_midpoint_column bstd [(1 : ℚ)/20] = [some ((1 : ℚ)/20)] ∧
    npRound 3 ((bstd.bins.getD 0 0 + bstd.bins.getD 1 0) / 2) = (1 : ℚ)/40 ∧
    (1 : ℚ)/20 ≠ (1 : ℚ)/40 ∧ (1 : ℚ)/20 ≠ 0 ∧
    add_bin_midpoint_column bstd [(1 : ℚ)] = [none] := by
  decide

/-- C6 amended: the labeling helper maps each value landing in the half-open
bin `[edgeᵢ, edgeᵢ₊₁)` (every bin half-open on the right, the lowest included)
to that own bin's midpoint shifted down by half a bin width,
`round3(midpointᵢ - binwidth/2)`; a value in no bin (e.g. the top edge) gets a
missing label. -/
theorem add_bin_midpoint_own_bin_label (b : BunchingAnalysis) (v : ℚ) (i : ℕ)
    (h : pdCutIdx (b.bins.map (npRound 2)) (npRound 2 v) = some i) :
    add_bin_midpoint_column b [v]
      = [(b.midpoints[i]?).map (fun m => npRound 3 (m - b.binwidth / 2))] ∧
    (b.bins.map (npRound 2)).getD i 0 ≤ npRound 2 v ∧
    npRound 2 v < (b.bins.map (npRound 2)).getD (i + 1) 0 := by
  have hpred := List.find?_some h
  simp only [Bool.and_eq_true, decide_eq_true_eq] at hpred
  refine ⟨?_, hpred.1, hpred.2⟩
  simp [add_bin_midpoint_column, h, List.getElem?_map]

/-- C6 amended witness: the value `0.05` lands in bin 1 (`[0.05, 0.10)`) and
receives the label `round3(midpoint₁ - binwidth/2)`. -/
theorem add_bin_midpoint_own_bin_label_witness :
    pdCutIdx (bstd.bins.map (npRound 2)) (npRound 2 ((1 : ℚ)/20)) = some 1 ∧
    (add_bin_midpoint_column bstd [(1 : ℚ)/20]
        = [(bstd.midpoints[1]?).map (fun m => npRound 3 (m - bstd.binwidth / 2))] ∧
      (bstd.bins.map (npRound 2)).getD 1 0 ≤ npRound 2 ((1 : ℚ)/20) ∧
      npRound 2 ((1 : ℚ)/20) < (bstd.bins.map (npRound 2)).getD 2 0) :=
  ⟨by decide, add_bin_midpoint_own_bin_label bstd ((1 : ℚ)/20) 1 (by decide)⟩

/-- C9 counterexample: with binwidth `1/2` there are only two bins; excluding
the matching midpoint `1/4` leaves a single bin, fewer than
`poly_degree + 1 = 5` distinct included bins, yet `scenario1` completes and
returns a result (NumPy only emits a `RankWarning` for the underdetermined
least-squares problem).  This falsifies the claim that a degree-of-freedom
violation surfaces a fatal input-validation error. -/
theorem dof_violation_not_fatal :
    (scenario1 pfZero rngId bW 1 [(1 : ℚ)/4] (0, 0)).isSome = true ∧
    (bW.midpoints.filter (fun m => decide (m ≠ (1 : ℚ)/4))).length
      < bW.poly_degree + 1 := by
  decide

/-- C9 amended: the code performs no input validation at all.  An empty
sample passes the constructor (`dropna` just yields an empty list) and the
first scenario call then fails, but only incidentally, with the resampling
routine's `ValueError` (`randint(0, 0)`), not an input-validation check; a
non-matching exclusion point and a degree-of-freedom violation are silently
tolerated — any iteration whose filtered midpoint list is non-empty succeeds
regardless of the degree. -/
theorem input_validation_actual_behavior (pf : List ℚ → List ℚ → ℕ → List ℚ)
    (rng : ℕ → ℕ → ℕ) :
    (∀ (w : ℚ) (d s : ℕ), (mkBunchingAnalysis [none] w d s).data = []) ∧
    (∀ (b : BunchingAnalysis) (num : ℕ) (excl : List ℚ) (g : ℕ × ℕ),
      b.data = [] → 0 < num → excl ≠ [] →
      scenario1 pf rng b num excl g = none) ∧
    (∀ (b : BunchingAnalysis) (p : ℚ) (s c : ℕ) (ys : List ℕ),
      bootstrapCounts rng b s c = some ys →
      (maskFilter b.midpoints ys (fun m => decide (m ≠ p))).1 ≠ [] →
      (scenario1Iter pf rng b p s c).isSome = true) := by
  refine ⟨?_, ?_, ?_⟩
  · intro w d s
    rfl
  · intro b num excl g hdata hnum hexcl
    match excl, hexcl with
    | p :: ps, _ =>
      match num, hnum with
      | k + 1, _ =>
        simp [scenario1, scenario1Run, simLoop, scenario1Iter, bootstrapCounts,
          pdSample, hdata]
  · intro b p s c ys hys hne
    rcases hmf : (maskFilter b.midpoints ys (fun m => decide (m ≠ p))).1 with _ | ⟨x, xs⟩
    · exact absurd hmf hne
    · rw [scenario1Iter_eq, hys]
      simp only [Option.some_bind]
      rw [hmf]
      simp [scenario1Fit]

/-- C9 amended witness: concrete instances for each conjunct — empty sample
after `dropna`, the resulting `scenario1` error, and a degree-of-freedom
violating iteration that nevertheless succeeds. -/
theorem input_validation_actual_behavior_witness :
    (mkBunchingAnalysis [none] (1/2 : ℚ) 4 0).data = [] ∧
    scenario1 pfZero rngId (mkBunchingAnalysis [none] (1/2 : ℚ) 4 0) 1 [(1 : ℚ)/4] (0, 0)
      = none ∧
    (scenario1Iter pfZero rngId bW ((1 : ℚ)/4) 0 0).isSome = true := by
  refine ⟨(input_validation_actual_behavior pfZero rngId).1 (1/2 : ℚ) 4 0, ?_, ?_⟩
  · exact (input_validation_actual_behavior pfZero rngId).2.1
      (mkBunchingAnalysis [none] (1/2 : ℚ) 4 0) 1 [(1 : ℚ)/4] (0, 0)
      (by decide) (by decide) (by decide)
  · exact (input_validation_actual_behavior pfZero rngId).2.2
      bW ((1 : ℚ)/4) 0 0 [1, 1] (by decide) (by decide)

theorem zip_tail_getElem? : ∀ (l : List ℚ) (i : ℕ), i + 1 < l.length →
    (l.zip l.tail)[i]? = some (l.getD i 0, l.getD (i + 1) 0)
  | [], i, h => by simp at h
  | [x], i, h => by simp at h
  | x :: y :: ys, 0, h => by simp
  | x :: y :: ys, i + 1, h => by
    have ih := zip_tail_getElem? (y :: ys) i (by simpa using h)
    simpa using ih

/-- C7: for every binwidth in `(0,1)` that evenly divides 1 (witnessed by a
natural `n` with `binwidth * n = 1`, so that `round(1/binwidth) = n` exactly),
the constructor produces exactly `n + 1` bin edges `0, w, 2w, …, 1` spaced by
the binwidth, and exactly `n` midpoints with
`midpoint[i] = round3((edge[i] + edge[i+1]) / 2)`. -/
theorem bins_and_midpoints_spec (b : BunchingAnalysis) (n : ℕ)
    (h0 : 0 < b.binwidth) (h1 : b.binwidth < 1)
    (hdiv : b.binwidth * (n : ℚ) = 1) :
    (1 / b.binwidth : ℚ) = (n : ℚ) ∧
    b.bins.length = n + 1 ∧
    (∀ i ≤ n, b.bins.getD i 0 = (i : ℚ) * b.binwidth) ∧
    b.bins.getD 0 0 = 0 ∧ b.bins.getD n 0 = 1 ∧
    b.midpoints.length = n ∧
    (∀ i < n, b.midpoints.getD i 0
        = npRound 3 ((b.bins.getD i 0 + b.bins.getD (i + 1) 0) / 2)) := by
  have hw : b.binwidth ≠ 0 := ne_of_gt h0
  have hinv : (1 / b.binwidth : ℚ) = (n : ℚ) := by
    rw [div_eq_iff hw]
    linear_combination -hdiv
  have hq : ((1 + b.binwidth) - 0) / b.binwidth = ((n + 1 : ℕ) : ℚ) := by
    rw [div_eq_iff hw]
    push_cast
    linear_combination -hdiv
  have hceil : (⌈((1 + b.binwidth) - 0) / b.binwidth⌉).toNat = n + 1 := by
    rw [hq, Int.ceil_natCast, Int.toNat_natCast]
  have hbins : b.bins
      = (List.range (n + 1)).map (fun k : ℕ => 0 + (k : ℚ) * b.binwidth) := by
    unfold BunchingAnalysis.bins npArange
    rw [hceil]
  have hblen : b.bins.length = n + 1 := by rw [hbins]; simp
  have hbget : ∀ i ≤ n, b.bins.getD i 0 = (i : ℚ) * b.binwidth := by
    intro i hi
    rw [hbins, getD_map_range _ _ (by omega)]
    ring
  refine ⟨hinv, hblen, hbget, ?_, ?_, ?_, ?_⟩
  · rw [hbget 0 (Nat.zero_le n)]
    simp
  · rw [hbget n le_rfl]
    linear_combination hdiv
  · rw [midpoints_length, hblen]
    omega
  · intro i hi
    have hlt : i + 1 < b.bins.length := by omega
    have hz := zip_tail_getElem? b.bins i hlt
    unfold BunchingAnalysis.midpoints
    rw [List.getD_eq_getElem?_getD, List.getElem?_map, hz]
    rfl

/-- C7 witness: the default configuration, binwidth `1/20`, yields 21 edges
and 20 midpoints. -/
theorem bins_and_midpoints_spec_witness :
    ((0 : ℚ) < bstd.binwidth ∧ bstd.binwidth < 1 ∧
      bstd.binwidth * ((20 : ℕ) : ℚ) = 1) ∧
    bstd.bins.length = 20 + 1 ∧ bstd.midpoints.length = 20 :=
  ⟨⟨by decide, by decide, by decide⟩,
   (bins_and_midpoints_spec bstd 20 (by decide) (by decide) (by decide)).2.1,
   (bins_and_midpoints_spec bstd 20 (by decide) (by decide)
     (by decide)).2.2.2.2.2.1⟩

theorem npMean0_getD {m : List (List ℚ)} (hw : ∀ row ∈ m, row.length = 20)
    {j : ℕ} (hj : j < 20) :
    (npMean0 m).getD j 0 = (npColumn m j).sum / (m.length : ℚ) := by
  match m with
  | [] => simp [npMean0, npColumn]
  | row :: rest =>
    simp only [npMean0]
    have hhead : ((row :: rest).headD []).length = 20 :=
      hw row (List.mem_cons_self row rest)
    rw [hhead, getD_map_range _ _ hj]

theorem npVar0_getD {m : List (List ℚ)} (hw : ∀ row ∈ m, row.length = 20)
    {j : ℕ} (hj : j < 20) :
    (npVar0 m).getD j 0
      = ((npColumn m j).map
          (fun x => (x - (npColumn m j).sum / (m.length : ℚ)) ^ 2)).sum
        / ((m.length : ℚ) - 1) := by
  match m with
  | [] => simp [npVar0, npColumn]
  | row :: rest =>
    simp only [npVar0]
    have hhead : ((row :: rest).headD []).length = 20 :=
      hw row (List.mem_cons_self row rest)
    rw [hhead, getD_map_range _ _ hj]

/-- C1: for every solver, generator, estimator and arguments, a successful
`scenario1` call returns a matrix of shape
`[len(exclude_points) * num_simulations, 20]`, and successful `scenario2` /
`scenario3` calls return matrices of shape `[4 * num_simulations, 20]`; in
every case the returned mean is the column-wise mean of the matrix and the
returned (squared) std is the column-wise sample variance with denominator
`n - 1` (`ddof=1`). -/
theorem scenario_output_shapes (pf : List ℚ → List ℚ → ℕ → List ℚ)
    (rng : ℕ → ℕ → ℕ) (b : BunchingAnalysis) :
    (∀ (num : ℕ) (excl : List ℚ) (g : ℕ × ℕ) r,
      scenario1 pf rng b num excl g = some r →
      r.1.length = excl.length * num ∧
      (∀ row ∈ r.1, row.length = 20) ∧
      r.2.1 = npMean0 r.1 ∧ r.2.2 = npVar0 r.1 ∧
      (∀ j < 20, r.2.1.getD j 0 = (npColumn r.1 j).sum / (r.1.length : ℚ)) ∧
      (∀ j < 20, r.2.2.getD j 0
        = ((npColumn r.1 j).map
            (fun x => (x - (npColumn r.1 j).sum / (r.1.length : ℚ)) ^ 2)).sum
          / ((r.1.length : ℚ) - 1))) ∧
    (∀ (num : ℕ) (g : ℕ × ℕ) r,
      scenario2 pf rng b num g = some r →
      r.1.length = 4 * num ∧
      (∀ row ∈ r.1, row.length = 20) ∧
      r.2.1 = npMean0 r.1 ∧ r.2.2 = npVar0 r.1 ∧
      (∀ j < 20, r.2.1.getD j 0 = (npColumn r.1 j).sum / (r.1.length : ℚ)) ∧
      (∀ j < 20, r.2.2.getD j 0
        = ((npColumn r.1 j).map
            (fun x => (x - (npColumn r.1 j).sum / (r.1.length : ℚ)) ^ 2)).sum
          / ((r.1.length : ℚ) - 1))) ∧
    (∀ (num : ℕ) (zstar : ℚ) (g : ℕ × ℕ) r,
      scenario3 pf rng b num zstar g = some r →
      r.1.length = 4 * num ∧
      (∀ row ∈ r.1, row.length = 20) ∧
      r.2.1 = npMean0 r.1 ∧ r.2.2 = npVar0 r.1 ∧
      (∀ j < 20, r.2.1.getD j 0 = (npColumn r.1 j).sum / (r.1.length : ℚ)) ∧
      (∀ j < 20, r.2.2.getD j 0
        = ((npColumn r.1 j).map
            (fun x => (x - (npColumn r.1 j).sum / (r.1.length : ℚ)) ^ 2)).sum
          / ((r.1.length : ℚ) - 1))) := by
  refine ⟨?_, ?_, ?_⟩
  · intro num excl g r h
    rcases scenario1_structure h with ⟨res', hrun, rfl⟩
    have hbl : ∀ bl ∈ excl.map res', bl.length = num := scenario1_blocks_length hrun
    have hrowlen : ∀ row ∈ (excl.map res').flatten, row.length = 20 := by
      intro row hrow
      rcases List.mem_flatten.1 hrow with ⟨bl, hbl2, hrowbl⟩
      rcases List.mem_map.1 hbl2 with ⟨p, hp, rfl⟩
      rcases scenario1Run_blocks hrun p hp with ⟨c0, hsl⟩
      rcases simLoop_mem hsl row hrowbl with ⟨c1, hiter⟩
      exact scenario1Iter_length hiter
    refine ⟨?_, hrowlen, rfl, rfl, ?_, ?_⟩
    · rw [flatten_length_blocks hbl, List.length_map]
    · intro j hj
      exact npMean0_getD hrowlen hj
    · intro j hj
      exact npVar0_getD hrowlen hj
  · intro num g r h
    rcases scenario2_structure h with ⟨matrix, hsl, rfl⟩
    have hrowlen : ∀ row ∈ matrix, row.length = 20 := by
      intro row hrow
      rcases simLoop_mem hsl row hrow with ⟨c0, hiter⟩
      exact scenario2Iter_length hiter
    refine ⟨?_, hrowlen, rfl, rfl, ?_, ?_⟩
    · rw [simLoop_length hsl, Nat.mul_comm]
    · intro j hj
      exact npMean0_getD hrowlen hj
    · intro j hj
      exact npVar0_getD hrowlen hj
  · intro num zstar g r h
    rcases scenario3_structure h with ⟨matrix, hsl, rfl⟩
    have hrowlen : ∀ row ∈ matrix, row.length = 20 := by
      intro row hrow
      rcases simLoop_mem hsl row hrow with ⟨c0, hiter⟩
      exact scenario3Iter_length hiter
    refine ⟨?_, hrowlen, rfl, rfl, ?_, ?_⟩
    · rw [simLoop_length hsl, Nat.mul_comm]
    · intro j hj
      exact npMean0_getD hrowlen hj
    · intro j hj
      exact npVar0_getD hrowlen hj

/-- C2: every entry of every matrix returned by a successful `scenario1`,
`scenario2` or `scenario3` call is ≥ 0, and hence so is every entry of the
returned mean curve: the clamp `np.clip(·, 0, None)` is applied in every
iteration of every scenario. -/
theorem scenario_curves_nonneg (pf : List ℚ → List ℚ → ℕ → List ℚ)
    (rng : ℕ → ℕ → ℕ) (b : BunchingAnalysis) :
    (∀ (num : ℕ) (excl : List ℚ) (g : ℕ × ℕ) r,
      scenario1 pf rng b num excl g = some r →
      (∀ row ∈ r.1, ∀ v ∈ row, 0 ≤ v) ∧ ∀ v ∈ r.2.1, 0 ≤ v) ∧
    (∀ (num : ℕ) (g : ℕ × ℕ) r,
      scenario2 pf rng b num g = some r →
      (∀ row ∈ r.1, ∀ v ∈ row, 0 ≤ v) ∧ ∀ v ∈ r.2.1, 0 ≤ v) ∧
    (∀ (num : ℕ) (zstar : ℚ) (g : ℕ × ℕ) r,
      scenario3 pf rng b num zstar g = some r →
      (∀ row ∈ r.1, ∀ v ∈ row, 0 ≤ v) ∧ ∀ v ∈ r.2.1, 0 ≤ v) := by
  refine ⟨?_, ?_, ?_⟩
  · intro num excl g r h
    rcases scenario1_structure h with ⟨res', hrun, rfl⟩
    have hmat : ∀ row ∈ (excl.map res').flatten, ∀ v ∈ row, 0 ≤ v := by
      intro row hrow
      rcases List.mem_flatten.1 hrow with ⟨bl, hbl2, hrowbl⟩
      rcases List.mem_map.1 hbl2 with ⟨p, hp, rfl⟩
      rcases scenario1Run_blocks hrun p hp with ⟨c0, hsl⟩
      rcases simLoop_mem hsl row hrowbl with ⟨c1, hiter⟩
      exact scenario1Iter_nonneg hiter
    exact ⟨hmat, npMean0_nonneg hmat⟩
  · intro num g r h
    rcases scenario2_structure h with ⟨matrix, hsl, rfl⟩
    have hmat : ∀ row ∈ matrix, ∀ v ∈ row, 0 ≤ v := by
      intro row hrow
      rcases simLoop_mem hsl row hrow with ⟨c0, hiter⟩
      exact scenario2Iter_nonneg hiter
    exact ⟨hmat, npMean0_nonneg hmat⟩
  · intro num zstar g r h
    rcases scenario3_structure h with ⟨matrix, hsl, rfl⟩
    have hmat : ∀ row ∈ matrix, ∀ v ∈ row, 0 ≤ v := by
      intro row hrow
      rcases simLoop_mem hsl row hrow with ⟨c0, hiter⟩
      exact scenario3Iter_nonneg hiter
    exact ⟨hmat, npMean0_nonneg hmat⟩

/-- C3: in a successful `scenario3` call the exclusion mask
`(midpoint < zstar - binwidth) | (midpoint > zstar + binwidth)` is a single
static filter: every midpoint inside `[zstar - binwidth, zstar + binwidth]` is
absent from the retained midpoints, every iteration's fit input is exactly the
retained midpoints, and the 20-point evaluation grid of every iteration runs
exactly from the minimum to the maximum of the retained midpoints. -/
theorem scenario3_static_exclusion_window (pf : List ℚ → List ℚ → ℕ → List ℚ)
    (rng : ℕ → ℕ → ℕ) (b : BunchingAnalysis) (num : ℕ) (zstar : ℚ)
    (g : ℕ × ℕ) (r : List (List ℚ) × List ℚ × List ℚ)
    (h : scenario3 pf rng b num zstar g = some r) :
    (∀ m ∈ b.midpoints, zstar - b.binwidth ≤ m → m ≤ zstar + b.binwidth →
        m ∉ scenario3Retained b zstar) ∧
    ∀ i < num * 4, ∃ ys : List ℚ,
      polyfit_smoothed pf b.poly_degree (scenario3Retained b zstar) ys
          = some (r.1.getD i []) ∧
      scenario3Retained b zstar ≠ [] ∧
      r.1.getD i [] = npClip0 ((npLinspace (listMin (scenario3Retained b zstar))
          (listMax (scenario3Retained b zstar)) 20).map
            (npPolyval (pf (scenario3Retained b zstar) ys b.poly_degree))) ∧
      (npLinspace (listMin (scenario3Retained b zstar))
          (listMax (scenario3Retained b zstar)) 20).getD 0 0
        = listMin (scenario3Retained b zstar) ∧
      (npLinspace (listMin (scenario3Retained b zstar))
          (listMax (scenario3Retained b zstar)) 20).getD 19 0
        = listMax (scenario3Retained b zstar) ∧
      (npLinspace (listMin (scenario3Retained b zstar))
          (listMax (scenario3Retained b zstar)) 20).length = 20 := by
  constructor
  · intro m hm hlo hhi hmem
    have hp := (List.mem_filter.1 hmem).2
    simp only [Bool.or_eq_true, decide_eq_true_eq] at hp
    rcases hp with hlt | hgt
    · linarith
    · linarith
  · rcases scenario3_structure h with ⟨matrix, hsl, rfl⟩
    intro i hi
    have hrow := simLoop_rows hsl i hi
    rw [scenario3Iter_eq] at hrow
    rcases Option.bind_eq_some.1 hrow with ⟨counts, hbc, hfit⟩
    have hlen : counts.length = b.midpoints.length := bootstrapCounts_length hbc
    have hret : (maskFilter b.midpoints counts
        (fun m => decide (m < zstar - b.binwidth) || decide (zstar + b.binwidth < m))).1
        = scenario3Retained b zstar := by
      rw [maskFilter_fst _ (le_of_eq hlen.symm)]
      rfl
    rw [hret] at hfit
    have hne : scenario3Retained b zstar ≠ [] := by
      intro hempty
      rw [hempty] at hfit
      simp [polyfit_smoothed] at hfit
    have hE : (scenario3Retained b zstar).isEmpty = false := by
      rcases hv : scenario3Retained b zstar with _ | ⟨x, xs⟩
      · exact absurd hv hne
      · rfl
    refine ⟨(maskFilter b.midpoints counts
        (fun m => decide (m < zstar - b.binwidth) || decide (zstar + b.binwidth < m))).2.map
          (fun k : ℕ => (k : ℚ)), hfit, hne, ?_, ?_, ?_, ?_⟩
    · have := hfit
      simp only [polyfit_smoothed, hE, Bool.false_eq_true, if_false,
        Option.some_inj] at this
      exact this.symm
    · exact npLinspace_getD_zero _ _ 18
    · exact npLinspace_getD_last _ _ 18
    · exact npLinspace_length _ _ 20

/-- C8: `scenario1` reseeds the generator exactly once before the loop over
exclusion points; consequently, for distinct exclusion points, the bootstrap
resample of simulation `i` for the `j`-th exclusion point is drawn from the
single stream for the estimator's seed starting at draw counter
`(j*num + i) * len(data)` — the successive exclusion points consume
successive, non-overlapping slices of one reseeded stream. -/
theorem scenario1_single_stream_slices (pf : List ℚ → List ℚ → ℕ → List ℚ)
    (rng : ℕ → ℕ → ℕ) (b : BunchingAnalysis) (num : ℕ) (excl : List ℚ)
    (g : ℕ × ℕ) (r : List (List ℚ) × List ℚ × List ℚ)
    (hnd : excl.Nodup) (h : scenario1 pf rng b num excl g = some r) :
    ∀ j < excl.length, ∀ i < num,
      scenario1Iter pf rng b (excl.getD j 0) b.seed
          ((j * num + i) * b.data.length)
        = some (r.1.getD (j * num + i) []) := by
  rcases scenario1_structure h with ⟨res', hrun, rfl⟩
  intro j hj i hi
  have hbl : ∀ bl ∈ excl.map res', bl.length = num := scenario1_blocks_length hrun
  have hblock := scenario1Run_nodup_blocks hrun hnd j hj
  have hrow := simLoop_rows hblock i hi
  have hidx : (0 : ℕ) + j * (num * b.data.length) + i * b.data.length
      = (j * num + i) * b.data.length := by ring
  rw [hidx] at hrow
  have hexj : excl[j]? = some (excl.getD j 0) := by
    rw [List.getElem?_eq_getElem hj]
    simp [List.getD_eq_getElem?_getD, List.getElem?_eq_getElem hj]
  have hmapget : (excl.map res').getD j [] = res' (excl.getD j 0) := by
    rw [List.getD_eq_getElem?_getD, List.getElem?_map, hexj]
    rfl
  have hget : ((excl.map res').flatten).getD (j * num + i) []
      = ((excl.map res').getD j []).getD i [] :=
    flatten_getD_blocks hbl (by simpa using hj) hi
  rw [hget, hmapget]
  exact hrow

/-- Concrete output of `scenario1 pfZero rngId bW 1 [1/4]`. -/
def rA : List (List ℚ) × List ℚ × List ℚ :=
  ([List.replicate 20 0], List.replicate 20 0, List.replicate 20 0)

/-- Concrete output of `scenario2 pfZero rngId bW 1`. -/
def rB : List (List ℚ) × List ℚ × List ℚ :=
  (List.replicate 4 (List.replicate 20 0), List.replicate 20 0, List.replicate 20 0)

/-- Concrete output of `scenario3 pfZero rngId bW 1 0`. -/
def rC : List (List ℚ) × List ℚ × List ℚ :=
  (List.replicate 4 (List.replicate 20 0), List.replicate 20 0, List.replicate 20 0)

/-- Concrete output of `scenario1 pfZero rngId bW 1 [1/4, 3/4]`. -/
def rD : List (List ℚ) × List ℚ × List ℚ :=
  (List.replicate 2 (List.replicate 20 0), List.replicate 20 0, List.replicate 20 0)

/-- C1 witness: a concrete `scenario1` run with one exclusion point and one
simulation, discharging the success hypothesis. -/
theorem scenario_output_shapes_witness :
    scenario1 pfZero rngId bW 1 [(1 : ℚ)/4] (0, 0) = some rA ∧
    rA.1.length = [(1 : ℚ)/4].length * 1 ∧ rA.2.1 = npMean0 rA.1 := by
  have h : scenario1 pfZero rngId bW 1 [(1 : ℚ)/4] (0, 0) = some rA := by decide
  have hc := (scenario_output_shapes pfZero rngId bW).1 1 [(1 : ℚ)/4] (0, 0) rA h
  exact ⟨h, hc.1, hc.2.2.1⟩

/-- C2 witness: a concrete `scenario2` run, with the non-negativity of a
concrete matrix entry obtained from the theorem. -/
theorem scenario_curves_nonneg_witness :
    scenario2 pfZero rngId bW 1 (0, 0) = some rB ∧ (0 : ℚ) ≤ 0 := by
  have h : scenario2 pfZero rngId bW 1 (0, 0) = some rB := by decide
  exact ⟨h, ((scenario_curves_nonneg pfZero rngId bW).2.1 1 (0, 0) rB h).1
    (List.replicate 20 0) (by decide) 0 (by decide)⟩

/-- C3 witness: a concrete `scenario3` run with `zstar = 0`; the midpoint
`1/4` lies in the window `[zstar - binwidth, zstar + binwidth] = [-1/2, 1/2]`
and the theorem yields its absence from the retained midpoints. -/
theorem scenario3_static_exclusion_window_witness :
    scenario3 pfZero rngId bW 1 0 (0, 0) = some rC ∧
    (1 : ℚ)/4 ∉ scenario3Retained bW 0 := by
  have h : scenario3 pfZero rngId bW 1 0 (0, 0) = some rC := by decide
  exact ⟨h, (scenario3_static_exclusion_window pfZero rngId bW 1 0 (0, 0) rC h).1
    ((1 : ℚ)/4) (by decide) (by decide) (by decide)⟩

/-- C8 witness: a concrete `scenario1` run over the two distinct exclusion
points `1/4` and `3/4`; the theorem locates the second block's first row at
draw counter `(1*1+0) * len(data)` of the single reseeded stream. -/
theorem scenario1_single_stream_slices_witness :
    [(1 : ℚ)/4, 3/4].Nodup ∧
    scenario1 pfZero rngId bW 1 [(1 : ℚ)/4, 3/4] (0, 0) = some rD ∧
    scenario1Iter pfZero rngId bW ([(1 : ℚ)/4, 3/4].getD 1 0) bW.seed
        ((1 * 1 + 0) * bW.data.length)
      = some (rD.1.getD (1 * 1 + 0) []) := by
  have hnd : [(1 : ℚ)/4, 3/4].Nodup := by decide
  have h : scenario1 pfZero rngId bW 1 [(1 : ℚ)/4, 3/4] (0, 0) = some rD := by decide
  exact ⟨hnd, h, scenario1_single_stream_slices pfZero rngId bW 1
    [(1 : ℚ)/4, 3/4] (0, 0) rD hnd h 1 (by decide) 0 (by decide)⟩
